import Mathlib

/- A purely functional model of the partial-js interaction engine
   (src/partial.htmx.js), together with theorems settling the
   specification's claims about retry/timeout behaviour, header assembly,
   response reconciliation, out-of-band swapping, the swap primitive,
   configuration resolution and error routing.  Host primitives (fetch,
   DOM lookup, JSON.parse, window functions) are modelled as explicit
   parameters; everything written by the engine itself is translated
   directly from the source. -/

namespace PartialJs

/-- JS string truthiness: the empty string is falsy, every other string truthy. -/
def strTruthy (s : String) : Bool := s ≠ ""

/-- JS `a || d` for a nullable string `a` (null or a string) and a string default `d`. -/
def jsOrD (a : Option String) (d : String) : String :=
  match a with
  | none => d
  | some s => if s = "" then d else s

/-- JS-object field lookup on an association list (later entries shadow nothing:
objects have unique keys, and `objSet` keeps it that way). -/
def objGet : List (String × String) → String → Option String
  | [], _ => none
  | p :: rest, k => if p.1 = k then some p.2 else objGet rest k

/-- JS-object field assignment: replace the value in place when the key exists,
else append the new entry. -/
def objSet : List (String × String) → String → String → List (String × String)
  | [], k, v => [(k, v)]
  | p :: rest, k, v => if p.1 = k then (k, v) :: rest else p :: objSet rest k v

/-- toUpperCase over an attribute name (character-wise). -/
def toUpperStr (s : String) : String := String.mk (s.data.map Char.toUpper)

/-- toLowerCase over a method name (character-wise). -/
def toLowerStr (s : String) : String := String.mk (s.data.map Char.toLower)

/-- The attribute name without its two-character x- prefix (the source's
replace of the first occurrence of x-, applied to x-prefixed names). -/
def dropPrefix2 (s : String) : String := String.mk (s.data.drop 2)

/-- name.startsWith of the two-character string x-. -/
def startsWithXDash (s : String) : Bool :=
  match s.data with
  | 'x' :: '-' :: _ => true
  | _ => false

/-- The action attributes, in the fixed iteration order of ATTRIBUTES.ACTIONS
(GET, POST, PUT, DELETE, PATCH). -/
def ACTION_ATTRS : List String := ["x-get", "x-post", "x-put", "x-delete", "x-patch"]

/-- INHERITABLE_ATTRIBUTES, exactly as listed in the constructor. -/
def INHERITABLE_ATTRIBUTES : List String :=
  ["x-target", "x-swap", "x-serialize", "x-trigger", "x-loading-class",
   "x-indicator", "x-retry", "x-timeout", "x-focus", "x-debounce"]

/-- The attributes excluded from header conversion in getHeaders. -/
def EXCLUDED_HEADER_ATTRS : List String :=
  ACTION_ATTRS ++ ["x-target", "x-trigger", "x-swap", "x-swap-oob",
    "x-push-state", "x-infinite-scroll", "x-debounce"]

/-- One DOM element's attribute list (the HTML parser lowercases names, and an
element has at most one attribute per name). -/
structure ElemAttrs where
  attrs : List (String × String)

/-- element.getAttribute: the attribute's value, or null (none) when absent. -/
def getAttr (e : ElemAttrs) (name : String) : Option String :=
  objGet e.attrs name

/-- An element together with its ancestor chain: the head is the element itself,
the tail its parent, grandparent, and so on up to the document root. -/
abbrev Chain := List ElemAttrs

/-- The element itself (an empty chain stands for a detached placeholder). -/
def selfElem (c : Chain) : ElemAttrs := c.headD ⟨[]⟩

/-- getAttributeWithInheritance: walk up the ancestor chain for inheritable
attributes, read only the element itself otherwise. -/
def getAttributeWithInheritance (c : Chain) (name : String) : Option String :=
  if name ∈ INHERITABLE_ATTRIBUTES then
    c.findSome? (fun e => getAttr e name)
  else
    match c with
    | [] => none
    | e :: _ => getAttr e name

/-- hasAttributeWithInheritance: the inherited lookup found a value (not null). -/
def hasAttributeWithInheritance (c : Chain) (name : String) : Bool :=
  (getAttributeWithInheritance c name).isSome

/-- getMethod: the first action attribute, in fixed order, found per the
inheritance rules; the method name is the attribute without its x- prefix,
uppercased; defaults to GET. -/
def getMethod (c : Chain) : String :=
  match ACTION_ATTRS.find? (fun a => hasAttributeWithInheritance c a) with
  | some a => toUpperStr (dropPrefix2 a)
  | none => "GET"

/-- Claim C8's spec-side resolver, written from the spec's words: the first
action-kind attribute, in the fixed order, found on the element itself — or on
its ancestors when that attribute is inheritable — and GET when none is found. -/
def methodSpecC8 (c : Chain) : String :=
  match ACTION_ATTRS.find? (fun a =>
      if a ∈ INHERITABLE_ATTRIBUTES then (c.findSome? (fun e => getAttr e a)).isSome
      else (match c with
            | [] => (none : Option String)
            | e :: _ => getAttr e a).isSome) with
  | some a => toUpperStr (dropPrefix2 a)
  | none => "GET"

/-- The numeric value of a decimal digit run; none when the run is empty. -/
def digitsVal (cs : List Char) : Option Nat :=
  let ds := cs.takeWhile Char.isDigit
  if ds.isEmpty then none
  else some (ds.foldl (fun acc c => acc * 10 + (c.toNat - '0'.toNat)) 0)

/-- JS parseInt(s, 10): skip leading whitespace, read an optional sign and the
longest digit prefix (trailing garbage ignored); NaN (none) when no digit follows. -/
def parseIntJs (s : String) : Option Int :=
  let cs := s.data.dropWhile Char.isWhitespace
  match cs with
  | '-' :: rest => (digitsVal rest).map (fun n => -(n : Int))
  | '+' :: rest => (digitsVal rest).map (fun n => (n : Int))
  | _ => (digitsVal cs).map (fun n => (n : Int))

/-- handleAction's maxRetries resolution: `parseInt(retryValue, 10) || 1` where
retryValue is the inherited x-retry attribute (null when absent; parseInt of null
is NaN, and both NaN and 0 are falsy, so they fall back to 1). -/
def resolveMaxRetries (retryValue : Option String) : Int :=
  match retryValue with
  | none => 1
  | some s =>
    match parseIntJs s with
    | none => 1
    | some n => if n = 0 then 1 else n

/-- The outcome the host network delivers for one fetch attempt: a response with
an HTTP-success status, a response with a non-success status (whose body text is
read for the thrown error), a rejected fetch, or an abort (timeout cancellation). -/
inductive FetchOutcome where
  | success
  | httpError (status : Nat) (text : String)
  | networkError (msg : String)
  | abortError
deriving DecidableEq

/-- The errors performRequestCore can throw. -/
inductive CoreError where
  | timedOut
  | httpFailure (status : Nat) (text : String)
  | networkFailure (msg : String)
  | noResponse
deriving DecidableEq

/-- Result of performRequestCore, with the number of attempts the loop made. -/
inductive CoreResult where
  | ok (attemptsMade : Nat)
  | err (e : CoreError) (attemptsMade : Nat)
deriving DecidableEq

/-- The number of network attempts a core run made. -/
def attemptsOf : CoreResult → Nat
  | .ok a => a
  | .err _ a => a

/-- A failure the retry loop retries: a non-success HTTP status or a network
error — not an abort (the AbortError branch rethrows at once). -/
def isRetryableFailure : FetchOutcome → Bool
  | .httpError _ _ => true
  | .networkError _ => true
  | _ => false

/-- performRequestCore's while-loop. `remaining` is maxAttempts minus the
attempts already made; `attempts` is the count already made (also the 0-based
index of the next attempt).  Each iteration increments attempts, fetches, and:
returns on an ok response; throws a timeout error on AbortError; rethrows the
error when this was the last attempt; otherwise loops.  Falling out of the loop
hits the final defensive throw (noResponse). -/
def runAttempts (outcomes : Nat → FetchOutcome) : Nat → Nat → CoreResult
  | 0, attempts => .err .noResponse attempts
  | remaining + 1, attempts =>
    match outcomes attempts with
    | .success => .ok (attempts + 1)
    | .abortError => .err .timedOut (attempts + 1)
    | .httpError s t =>
      if remaining = 0 then .err (.httpFailure s t) (attempts + 1)
      else runAttempts outcomes remaining (attempts + 1)
    | .networkError m =>
      if remaining = 0 then .err (.networkFailure m) (attempts + 1)
      else runAttempts outcomes remaining (attempts + 1)

/-- performRequestCore: maxAttempts = maxRetries + 1 (maxRetries reaches this
function as a JS number and may be negative); the loop runs while
attempts < maxAttempts. -/
def performRequestCore (maxRetries : Int) (outcomes : Nat → FetchOutcome) : CoreResult :=
  runAttempts outcomes (maxRetries + 1).toNat 0

/-- The configured CSRF token source: a literal value or a zero-argument provider. -/
inductive CsrfSource where
  | literal (s : String)
  | provider (f : Unit → String)

/-- JS truthiness of the csrfToken option: null and the empty-string literal are
falsy; a function is always truthy. -/
def csrfTruthy : Option CsrfSource → Bool
  | none => false
  | some (.literal s) => s ≠ ""
  | some (.provider _) => true

/-- The token value: the literal, or the provider's result. -/
def csrfValue : CsrfSource → String
  | .literal s => s
  | .provider f => f ()

/-- The token value of an optional source (only consulted when truthy). -/
def csrfOptValue : Option CsrfSource → String
  | some src => csrfValue src
  | none => ""

/-- capitalize: uppercase the first character, keep the rest. -/
def capitalize (s : String) : String :=
  match s.data with
  | [] => ""
  | c :: cs => String.mk (c.toUpper :: cs)

/-- getHeaders: start empty, set the CSRF header when a token is configured,
then convert every x-prefixed element attribute outside the exclusion set into
a header named X- plus the capitalized attribute suffix. -/
def getHeaders (csrfToken : Option CsrfSource) (elementAttrs : List (String × String)) :
    List (String × String) :=
  let base : List (String × String) :=
    if csrfTruthy csrfToken then objSet [] "X-CSRF-Token" (csrfOptValue csrfToken) else []
  elementAttrs.foldl (fun hs p =>
    if startsWithXDash p.1 && !(EXCLUDED_HEADER_ATTRS.contains p.1) then
      objSet hs ("X-" ++ capitalize (p.1.drop 2)) p.2
    else hs) base

/-- prepareRequestHeaders: copy defaultHeaders (the descriptor's headers), then
set the CSRF header on top of them when a token is configured, then merge the
element's parsed x-headers attribute last.  JSON.parse of a malformed x-headers
value throws. -/
def prepareRequestHeaders (csrfToken : Option CsrfSource)
    (parseJsonObj : String → Option (List (String × String)))
    (xHeadersAttr : Option String)
    (defaultHeaders : List (String × String)) :
    Except String (List (String × String)) :=
  let headers := defaultHeaders
  let headers :=
    if csrfTruthy csrfToken then objSet headers "X-CSRF-Token" (csrfOptValue csrfToken)
    else headers
  match xHeadersAttr with
  | some s =>
    if s = "" then .ok headers
    else
      match parseJsonObj s with
      | some entries => .ok (entries.foldl (fun hs p => objSet hs p.1 p.2) headers)
      | none => .error "Invalid JSON in x-headers attribute"
  | none => .ok headers

/-- prepareRequestUrl: append paramsObject as a query string (URLSearchParams
percent-encoding abstracted away), merging with an existing query when present. -/
def prepareRequestUrl (url : String) (paramsObject : List (String × String)) : String :=
  if paramsObject.isEmpty then url
  else
    let queryString := String.intercalate "&" (paramsObject.map (fun p => p.1 ++ "=" ++ p.2))
    if url.contains '?' then url ++ "&" ++ queryString else url ++ "?" ++ queryString

/-- The engine's transient markers on a live node: the request-handler
initialization flag, the SSE initialization flag, and the number of attached
trigger listeners. -/
structure Marks where
  inited : Bool
  sseInited : Bool
  listeners : Nat
deriving DecidableEq

/-- The markers of a freshly parsed node: nothing initialized, no listeners. -/
def freshMarks : Marks := ⟨false, false, 0⟩

/-- A markup node: attributes, the engine's transient markers and child nodes.
A fresh parse of markup text yields nodes whose markers are all cleared. -/
inductive MNode where
  | elem (attrs : List (String × String)) (marks : Marks) (children : List MNode)

/-- The node's attributes. -/
def MNode.nattrs : MNode → List (String × String)
  | .elem a _ _ => a

/-- The node's markers. -/
def MNode.marks : MNode → Marks
  | .elem _ m _ => m

/-- The request-handler initialization marker. -/
def MNode.inited (n : MNode) : Bool := n.marks.inited

/-- The SSE initialization marker. -/
def MNode.sseInited (n : MNode) : Bool := n.marks.sseInited

/-- The number of trigger listeners attached to the node. -/
def MNode.listeners (n : MNode) : Nat := n.marks.listeners

/-- The node's children. -/
def MNode.children : MNode → List MNode
  | .elem _ _ c => c

/-- getAttribute on a markup node. -/
def nAttr (n : MNode) (name : String) : Option String :=
  objGet n.nattrs name

/-- Whether an attribute list matches scanForElements' combined selector: it
carries an action attribute or the x-sse attribute. -/
def matchesScanAttrs (attrs : List (String × String)) : Bool :=
  ACTION_ATTRS.any (fun a => (objGet attrs a).isSome) || (objGet attrs "x-sse").isSome

/-- setupElement's effect on a node's markers: skip when already initialized;
an infinite-scroll element is marked initialized without a trigger listener
(it gets an observer instead); otherwise attach one trigger listener and mark
the element initialized.  Attributes and children are untouched. -/
def setupElementM (attrs : List (String × String)) (m : Marks) : Marks :=
  if m.inited then m
  else if (objGet attrs "x-infinite-scroll").isSome then { m with inited := true }
  else { m with inited := true, listeners := m.listeners + 1 }

/-- setupSSEElement's effect on a node's markers: skip when already
SSE-initialized or when the x-sse attribute value is falsy; otherwise open the
connection and mark the element (no trigger listener is attached). -/
def setupSSEElementM (attrs : List (String × String)) (m : Marks) : Marks :=
  if m.sseInited then m
  else if jsOrD (objGet attrs "x-sse") "" = "" then m
  else { m with sseInited := true }

/-- scanForElements' effect on one matched element's markers: SSE elements go
through setupSSEElement, all others through setupElement; a non-matching
element is untouched. -/
def scanMarks (attrs : List (String × String)) (m : Marks) : Marks :=
  if matchesScanAttrs attrs then
    if (objGet attrs "x-sse").isSome then setupSSEElementM attrs m
    else setupElementM attrs m
  else m

mutual

/-- scanForElements over one subtree root: set the node up when it matches the
combined selector, and scan all descendants. -/
def scanNode : MNode → MNode
  | .elem attrs m cs => .elem attrs (scanMarks attrs m) (scanForest cs)

/-- scanForElements over a fragment or child list: every node in it, at any
depth, is a descendant of the container and is scanned. -/
def scanForest : List MNode → List MNode
  | [] => []
  | n :: rest => scanNode n :: scanForest rest

end

mutual

/-- The node as re-parsed from its serialized markup: same structure, all
engine markers cleared (a fresh parse carries no listeners and no flags). -/
def clearNode : MNode → MNode
  | .elem attrs _ cs => .elem attrs freshMarks (clearForest cs)

/-- A fresh parse of a forest's serialized markup. -/
def clearForest : List MNode → List MNode
  | [] => []
  | n :: rest => clearNode n :: clearForest rest

end

mutual

/-- All nodes of a subtree, the root included, in document order. -/
def nodeList : MNode → List MNode
  | .elem a m cs => .elem a m cs :: forestNodes cs

/-- All nodes of a forest, at any depth. -/
def forestNodes : List MNode → List MNode
  | [] => []
  | n :: rest => nodeList n ++ forestNodes rest

end

/-- A declarative action element: it carries an action attribute and is neither
an SSE element nor an infinite-scroll container (those two kinds get no trigger
listener from setup). -/
def isActionElement (n : MNode) : Bool :=
  ACTION_ATTRS.any (fun a => (nAttr n a).isSome)
    && (nAttr n "x-sse").isNone && (nAttr n "x-infinite-scroll").isNone

/-- Whether a node carries the out-of-band marker attribute (the x-swap-oob
attribute selector matches on presence, any value included the empty one). -/
def hasOob (n : MNode) : Bool :=
  (nAttr n "x-swap-oob").isSome

mutual

/-- The parsed response document after every collected [x-swap-oob] element has
been detached from its parent: removing an outer match detaches its whole
subtree, so the remaining document is the recursive filter. -/
def removeOobForest : List MNode → List MNode
  | [] => []
  | n :: rest =>
    if hasOob n then removeOobForest rest
    else removeOobNode n :: removeOobForest rest

/-- Out-of-band removal below one kept node. -/
def removeOobNode : MNode → MNode
  | .elem a m cs => .elem a m (removeOobForest cs)

end

mutual

/-- querySelectorAll over the parsed document for the out-of-band marker: every
matching element in document order, nested matches included. -/
def collectOobForest : List MNode → List MNode
  | [] => []
  | n :: rest => collectOobNode n ++ collectOobForest rest

/-- Out-of-band collection over one subtree. -/
def collectOobNode : MNode → List MNode
  | .elem a m cs =>
    (if hasOob (.elem a m cs) then [MNode.elem a m cs] else [])
      ++ collectOobForest cs

end

/-- The live document, abstracted to its two lookups: querySelector and
getElementById, each returning a handle to a matching in-document element. -/
structure DocState where
  bySelector : String → Option Nat
  byId : String → Option Nat

/-- What one out-of-band fragment produced: a swap applied to the matching
existing element, or a reported skip (missing id, or no element with that id). -/
inductive OobStep where
  | applied (targetId : String) (swapOption : String) (content : MNode)
  | skippedNoId
  | skippedNoTarget (targetId : String)

/-- handleOobSwapping's body for one fragment: read the fragment's id (falsy id
is reported and skipped), resolve its own swap option (its x-swap-oob value, or
the engine default), look up the existing element by id (a miss is reported and
skipped), else swap the fragment's outer markup into that element. -/
def oobStepFor (doc : DocState) (defaultSwap : String) (oobElement : MNode) : OobStep :=
  match nAttr oobElement "id" with
  | none => .skippedNoId
  | some tid =>
    if tid = "" then .skippedNoId
    else
      let swapOption := jsOrD (nAttr oobElement "x-swap-oob") defaultSwap
      match doc.byId tid with
      | none => .skippedNoTarget tid
      | some _ => .applied tid swapOption oobElement

/-- handleOobSwapping: each extracted fragment is processed exactly once, in
order, independently of the others (each swapped subtree is then re-scanned;
that re-scan is covered by the swap primitive model). -/
def handleOobSwapping (doc : DocState) (defaultSwap : String) : List MNode → List OobStep
  | [] => []
  | o :: rest => oobStepFor doc defaultSwap o :: handleOobSwapping doc defaultSwap rest

/-- Where the primary swap lands: an element of the live document, or the
window (the literal selector root with no matching element). -/
inductive SwapTargetRef where
  | elem (handle : Nat)
  | windowRoot
deriving DecidableEq

/-- processResponse's target resolution: a truthy X-Target header value is
resolved via querySelector, then getElementById; a hit overrides the caller's
fallback target; the literal value root selects the window; anything else is
reported as an error and the fallback target is kept. -/
def resolveFinalTarget (doc : DocState) (backendTargetSelector : Option String)
    (fallback : Nat) : SwapTargetRef × Bool :=
  match backendTargetSelector with
  | none => (.elem fallback, false)
  | some sel =>
    if sel = "" then (.elem fallback, false)
    else
      match doc.bySelector sel with
      | some h => (.elem h, false)
      | none =>
        match doc.byId sel with
        | some h => (.elem h, false)
        | none =>
          if sel = "root" then (.windowRoot, false)
          else (.elem fallback, true)

/-- processResponse's swap-option resolution: the element's declared or
inherited x-swap attribute, else the engine default; a truthy X-Swap response
header overrides both. -/
def resolveSwapOption (chain : Chain) (defaultSwap : String)
    (backendSwapOption : Option String) : String :=
  let swapOption := jsOrD (getAttributeWithInheritance chain "x-swap") defaultSwap
  jsOrD backendSwapOption swapOption

/-- Everything processResponse decides before touching the DOM: the primary
target, whether an unresolvable header target was reported, the effective swap
option, the primary content (doc.body.innerHTML after out-of-band removal) and
the out-of-band steps. -/
structure PrimaryReconcile where
  target : SwapTargetRef
  targetError : Bool
  swapOption : String
  content : List MNode
  oobSteps : List OobStep

/-- processResponse: parse the response text, extract and detach all
out-of-band elements, resolve the backend target/swap overrides from the
response headers, take the remaining body as the primary swap content, and
process each out-of-band fragment once.  Event dispatches, re-scans and the
infinite-scroll stop instruction mutate nothing modelled here. -/
def processResponse (doc : DocState) (responseBody : List MNode)
    (respHeaders : String → Option String) (chain : Chain)
    (defaultSwap : String) (fallbackTarget : Nat) : PrimaryReconcile :=
  let oobElements := collectOobForest responseBody
  let remaining := removeOobForest responseBody
  let tgt := resolveFinalTarget doc (respHeaders "X-Target") fallbackTarget
  let swapOption := resolveSwapOption chain defaultSwap (respHeaders "X-Swap")
  { target := tgt.1, targetError := tgt.2, swapOption := swapOption,
    content := remaining, oobSteps := handleOobSwapping doc defaultSwap oobElements }

/-- What performSwap did to the document: which insertion the switch chose and
the nodes that actually entered the document there. -/
inductive SwapEffect where
  | replacedOuter (inserted : List MNode)
  | replacedInner (inserted : List MNode)
  | insertedAdjacent (position : String) (inserted : List MNode)
  | fallbackInner (inserted : List MNode)

/-- The nodes the swap inserted into the document. -/
def SwapEffect.inserted : SwapEffect → List MNode
  | .replacedOuter l => l
  | .replacedInner l => l
  | .insertedAdjacent _ l => l
  | .fallbackInner l => l

/-- performSwap(target, newContent, swapOption): the content string (here: the
forest its parse denotes) is parsed once into a detached template fragment and
that fragment is pre-scanned; outerHTML replaces the target with the scanned
fragment and innerHTML empties the target and appends it; the four
insertAdjacentHTML positions ignore the fragment and re-parse the raw string,
inserting fresh unscanned nodes; an unrecognized option is reported and falls
back to assigning the raw string to the target's innerHTML, also a fresh parse. -/
def performSwap (content : List MNode) (swapOption : String) : SwapEffect :=
  let fragment := scanForest (clearForest content)
  if swapOption = "outerHTML" then .replacedOuter fragment
  else if swapOption = "innerHTML" then .replacedInner fragment
  else if swapOption = "beforebegin" || swapOption = "afterbegin"
      || swapOption = "beforeend" || swapOption = "afterend" then
    .insertedAdjacent swapOption (clearForest content)
  else .fallbackInner (clearForest content)

/-- Which concrete handler consumed a reported failure. -/
inductive ErrorSink where
  | elementHandler (name : String)
  | onErrorCallback
  | builtinFallback
deriving DecidableEq

/-- handleError: the process-wide onError callback when it is a function, else
the built-in fallback (console.error, plus an inline error notice written into
the target element when one was passed). -/
def handleErrorSink (onErrorIsFn : Bool) : ErrorSink :=
  if onErrorIsFn then .onErrorCallback else .builtinFallback

/-- Whether the element-declared x-on-error handler is usable: the attribute is
truthy and names a window-global function. -/
def elementHandlerUsable (xOnErrorAttr : Option String) (windowFns : String → Bool) : Bool :=
  match xOnErrorAttr with
  | some name => name ≠ "" && windowFns name
  | none => false

/-- handleAction's catch block: the x-on-error-named window function when the
attribute is truthy and the global is callable, else the process-wide onError
callback when it is a function, else the built-in fallback (console.error and
an error notice written into the target element). -/
def actionCatchSink (xOnErrorAttr : Option String) (windowFns : String → Bool)
    (onErrorIsFn : Bool) : ErrorSink :=
  match xOnErrorAttr with
  | some name =>
    if name ≠ "" && windowFns name then .elementHandler name
    else if onErrorIsFn then .onErrorCallback
    else .builtinFallback
  | none => if onErrorIsFn then .onErrorCallback else .builtinFallback

/-- The engine's failure paths named by claim C9. -/
inductive FailurePath where
  | triggerAction
  | hookFailure
  | sseError
  | infiniteScrollError
deriving DecidableEq

/-- Where each failure path routes a failure: the trigger-action catch block
implements its resolution inline; runHooks' per-callback catch, the SSE onerror
and onmessage rejection handlers, and the infinite-scroll catch all call
this.handleError. -/
def failureSink (p : FailurePath) (xOnErrorAttr : Option String)
    (windowFns : String → Bool) (onErrorIsFn : Bool) : ErrorSink :=
  match p with
  | .triggerAction => actionCatchSink xOnErrorAttr windowFns onErrorIsFn
  | .hookFailure => handleErrorSink onErrorIsFn
  | .sseError => handleErrorSink onErrorIsFn
  | .infiniteScrollError => handleErrorSink onErrorIsFn

/-- The engine options that matter to the modelled paths. -/
structure EngineConfig where
  onErrorIsFn : Bool
  csrfToken : Option CsrfSource
  defaultSwapOption : String

/-- The host environment of one interaction: window globals, the confirm
dialog's answer, JSON.parse (objects abstracted to flat string maps), the live
document's lookups, each element handle's id attribute, the network outcome of
each attempt, and whether the element is or sits inside a form. -/
structure HostEnv where
  windowFns : String → Bool
  confirmAnswer : Bool
  parseJsonObj : String → Option (List (String × String))
  doc : DocState
  docIdOf : Nat → Option String
  outcomes : Nat → FetchOutcome
  formAncestor : Bool

/-- The request descriptor extractRequestParams builds. -/
structure RequestParamsM where
  method : String
  url : Option String
  headers : List (String × String)
  targetSelector : String
  partialId : Option String
  paramsObject : List (String × String)
deriving DecidableEq

/-- The default target selector: the element's own id as a fragment selector
when it has a truthy id, else the document body. -/
def defaultTargetSelector (e : ElemAttrs) : String :=
  match getAttr e "id" with
  | some i => if i = "" then "body" else "#" ++ i
  | none => "body"

/-- extractRequestParams: resolve the method, read the matching action
attribute as the URL, build the attribute headers, resolve the target selector
(falling back to the element's own id or body), read the target's id, and parse
x-params as JSON — a parse failure is reported through handleError and leaves
paramsObject as the empty object.  The reported sinks are returned alongside. -/
def extractRequestParams (cfg : EngineConfig) (env : HostEnv) (chain : Chain) :
    RequestParamsM × List ErrorSink :=
  let method := getMethod chain
  let actionAttr := "x-" ++ toLowerStr method
  let url := getAttributeWithInheritance chain actionAttr
  let headers := getHeaders cfg.csrfToken (selfElem chain).attrs
  let targetSelector :=
    jsOrD (getAttributeWithInheritance chain "x-target")
      (defaultTargetSelector (selfElem chain))
  let partialId := (env.doc.bySelector targetSelector).bind env.docIdOf
  match getAttributeWithInheritance chain "x-params" with
  | some s =>
    if s = "" then
      ({ method, url, headers, targetSelector, partialId, paramsObject := [] }, [])
    else
      match env.parseJsonObj s with
      | some obj =>
        ({ method, url, headers, targetSelector, partialId, paramsObject := obj }, [])
      | none =>
        ({ method, url, headers, targetSelector, partialId, paramsObject := [] },
         [handleErrorSink cfg.onErrorIsFn])
  | none => ({ method, url, headers, targetSelector, partialId, paramsObject := [] }, [])

/-- The configuration errors prepareRequestParams throws. -/
inductive PrepError where
  | noUrl (method : String)
  | noTargetElement (selector : String)
  | noPartialId
deriving DecidableEq

/-- prepareRequestParams: build the descriptor, then throw when the URL is
falsy, when no element matches the target selector, or when the target element
has no truthy id; otherwise set the X-Target header to the target's id. -/
def prepareRequestParamsM (cfg : EngineConfig) (env : HostEnv) (chain : Chain) :
    Except PrepError RequestParamsM × List ErrorSink :=
  let rpErrs := extractRequestParams cfg env chain
  let rp := rpErrs.1
  if jsOrD rp.url "" = "" then (.error (.noUrl rp.method), rpErrs.2)
  else if (env.doc.bySelector rp.targetSelector).isNone then
    (.error (.noTargetElement rp.targetSelector), rpErrs.2)
  else if jsOrD rp.partialId "" = "" then (.error .noPartialId, rpErrs.2)
  else (.ok { rp with headers := objSet rp.headers "X-Target" (rp.partialId.getD "") },
        rpErrs.2)

/-- The failures performRequest can surface into handleAction's catch block. -/
inductive ReqFailure where
  | invalidXJson
  | noFormForBody
  | invalidXHeaders
  | core (e : CoreError)
deriving DecidableEq

/-- prepareRequestBody, reduced to its control flow (the body value itself
feeds only the network call): a truthy x-json attribute must parse, else the
call throws; without x-json, serializing needs a form — its absence throws for
write methods and yields no body for read methods, whatever the declared
serialization kind. -/
def prepareRequestBodyControl (env : HostEnv) (chain : Chain) : Except ReqFailure Unit :=
  let xJson := jsOrD (getAttr (selfElem chain) "x-json") ""
  if xJson ≠ "" then
    match env.parseJsonObj xJson with
    | some _ => .ok ()
    | none => .error .invalidXJson
  else
    let method := getMethod chain
    let isWriteMethod :=
      method = "POST" || method = "PUT" || method = "PATCH" || method = "DELETE"
    if env.formAncestor then .ok ()
    else if isWriteMethod then .error .noFormForBody
    else .ok ()

/-- performRequest: beforeRequest hooks run, then the middleware chain (both
registries are empty at engine construction) reaches the final handler, which
prepares the body, URL and headers and calls performRequestCore.  Returns the
attempts made, or the failure with the attempts made before it. -/
def performRequestModel (cfg : EngineConfig) (env : HostEnv) (chain : Chain)
    (rp : RequestParamsM) (maxRetries : Int) : Except (ReqFailure × Nat) Nat :=
  match prepareRequestBodyControl env chain with
  | .error f => .error (f, 0)
  | .ok _ =>
    let _url := prepareRequestUrl (jsOrD rp.url "") rp.paramsObject
    match prepareRequestHeaders cfg.csrfToken env.parseJsonObj
        (getAttr (selfElem chain) "x-headers") rp.headers with
    | .error _ => .error (.invalidXHeaders, 0)
    | .ok _ =>
      match performRequestCore maxRetries env.outcomes with
      | .ok a => .ok a
      | .err e a => .error (.core e, a)

/-- What one triggered action did: whether it passed the confirm gate, every
error report in order, the network attempts made, and whether it reached the
response-processing stage. -/
structure ActionTrace where
  confirmed : Bool
  reports : List ErrorSink
  requestAttempts : Nat
  succeeded : Bool
deriving DecidableEq

/-- handleAction: the confirm gate, then maxRetries resolution, then
prepareRequestParams (whose throws escape handleAction — it is called before
the try block — and are caught by the trigger wrapper, which calls
handleError(error, element)); then the request runs and a failure lands in the
catch block's three-step handler resolution.  Indicator, loading-class, focus,
push-state and custom-event dispatches touch only presentation state and are
omitted; the x-timeout timer surfaces as an abortError outcome. -/
def handleActionModel (cfg : EngineConfig) (env : HostEnv) (chain : Chain) : ActionTrace :=
  if jsOrD (getAttr (selfElem chain) "x-confirm") "" ≠ "" && !env.confirmAnswer then
    { confirmed := false, reports := [], requestAttempts := 0, succeeded := false }
  else
    let maxRetries := resolveMaxRetries (getAttributeWithInheritance chain "x-retry")
    let prep := prepareRequestParamsM cfg env chain
    match prep.1 with
    | .error _ =>
      { confirmed := true, reports := prep.2 ++ [handleErrorSink cfg.onErrorIsFn],
        requestAttempts := 0, succeeded := false }
    | .ok rp =>
      match performRequestModel cfg env chain rp maxRetries with
      | .ok attempts =>
        { confirmed := true, reports := prep.2, requestAttempts := attempts,
          succeeded := true }
      | .error fa =>
        { confirmed := true,
          reports := prep.2 ++
            [actionCatchSink (getAttr (selfElem chain) "x-on-error")
              env.windowFns cfg.onErrorIsFn],
          requestAttempts := fa.2, succeeded := false }

/-- Whether a core run ended in a thrown error. -/
def isErr : CoreResult → Bool
  | .ok _ => false
  | .err _ _ => true

/-- The error a core run surfaced, when it threw. -/
def errorOf : CoreResult → Option CoreError
  | .ok _ => none
  | .err e _ => some e

/-- An outcome stream on which every attempt is a timed-out (aborted) attempt. -/
def allAbort : Nat → FetchOutcome := fun _ => .abortError

/-- An outcome stream on which every attempt fails with a network error. -/
def allNetworkDown : Nat → FetchOutcome := fun _ => .networkError "down"

/-- First attempt times out, any further attempt would succeed. -/
def abortThenSuccess : Nat → FetchOutcome :=
  fun j => if j = 0 then .abortError else .success

/-- First attempt fails with an HTTP 500, the second times out. -/
def failThenAbort : Nat → FetchOutcome :=
  fun j => if j = 0 then .httpError 500 "boom" else .abortError

/-- A configured literal CSRF token with value B. -/
def csrfConfigured : Option CsrfSource := some (.literal "B")

/-- A JSON.parse model that accepts nothing (no x-headers, x-json or x-params
value in the examples below is well-formed JSON). -/
def jsonParseNone : String → Option (List (String × String)) := fun _ => none

/-- A window object on which exactly the global myHandler is a function. -/
def windowWithHandler : String → Bool := fun s => s = "myHandler"

/-- A freshly parsed declarative action element (an x-get trigger element). -/
def sampleActionNode : MNode := .elem [("x-get", "/a")] freshMarks []

/-- The same element after one scan: initialized, one trigger listener. -/
def scannedActionNode : MNode := .elem [("x-get", "/a")] ⟨true, false, 1⟩ []

/-- An out-of-band fragment whose id matches nothing in the live document. -/
def oobNodeUnmatched : MNode := .elem [("id", "zz"), ("x-swap-oob", "")] freshMarks []

/-- A document in which no selector and no id resolves. -/
def docEmpty : DocState := ⟨fun _ => none, fun _ => none⟩

/-- Response headers carrying a target override to #y and a swap override to
outerHTML. -/
def respHeadersC3 : String → Option String :=
  fun n =>
    if n = "X-Target" then some "#y"
    else if n = "X-Swap" then some "outerHTML"
    else none

/-- A document in which #y resolves to element 7 and #x to element 3. -/
def docC3 : DocState :=
  ⟨fun s => if s = "#y" then some 7 else if s = "#x" then some 3 else none,
   fun _ => none⟩

/-- A triggering element that declares x-swap innerHTML (and targets #x). -/
def chainC3 : Chain := [⟨[("x-target", "#x"), ("x-swap", "innerHTML")]⟩]

/-- An engine with no onError callback, no CSRF token and the innerHTML default. -/
def cfgC7 : EngineConfig := ⟨false, none, "innerHTML"⟩

/-- An element with its own id, a GET action and a malformed x-params value. -/
def chainC7 : Chain := [⟨[("id", "x"), ("x-get", "/a"), ("x-params", "oops")]⟩]

/-- The host for the malformed-params run: #x resolves to element 5 whose id is
x, JSON.parse rejects everything, the network succeeds at once. -/
def envC7 : HostEnv :=
  { windowFns := fun _ => false
    confirmAnswer := true
    parseJsonObj := jsonParseNone
    doc := ⟨fun s => if s = "#x" then some 5 else none, fun _ => none⟩
    docIdOf := fun h => if h = 5 then some "x" else none
    outcomes := fun _ => .success
    formAncestor := false }

/-- The descriptor prepareRequestParams builds in the malformed-params run. -/
def rpC7 : RequestParamsM :=
  { method := "GET", url := some "/a",
    headers := [("X-Params", "oops"), ("X-Target", "x")],
    targetSelector := "#x", partialId := some "x", paramsObject := [] }

-- Theorems
-- --------

/-- find? is determined by the predicate's values on the list's elements. -/
theorem find?_congr_on {α : Type} (l : List α) (p q : α → Bool)
    (h : ∀ a ∈ l, p a = q a) : l.find? p = l.find? q := by
  induction l with
  | nil => rfl
  | cons x xs ih =>
    simp only [List.find?]
    rw [h x (by simp)]
    cases q x with
    | true => rfl
    | false => exact ih (fun a ha => h a (by simp [ha]))

/-- The loop makes at most `remaining` further attempts. -/
theorem attemptsOf_runAttempts_le (outcomes : Nat → FetchOutcome) :
    ∀ (r a : Nat), attemptsOf (runAttempts outcomes r a) ≤ a + r := by
  intro r
  induction r with
  | zero => intro a; simp [runAttempts, attemptsOf]
  | succ r ih =>
    intro a
    simp only [runAttempts]
    cases houtcomes : outcomes a with
    | success => simp [attemptsOf]
    | abortError => simp [attemptsOf]
    | httpError s t =>
      by_cases hr : r = 0
      · simp [hr, attemptsOf]
      · simp only [if_neg hr]
        have := ih (a + 1)
        omega
    | networkError m =>
      by_cases hr : r = 0
      · simp [hr, attemptsOf]
      · simp only [if_neg hr]
        have := ih (a + 1)
        omega

/-- With at least one attempt allowed, the loop makes at least one attempt. -/
theorem le_attemptsOf_runAttempts (outcomes : Nat → FetchOutcome) :
    ∀ (r a : Nat), 1 ≤ r → a + 1 ≤ attemptsOf (runAttempts outcomes r a) := by
  intro r
  induction r with
  | zero => intro a h; omega
  | succ r ih =>
    intro a _
    simp only [runAttempts]
    cases houtcomes : outcomes a with
    | success => simp [attemptsOf]
    | abortError => simp [attemptsOf]
    | httpError s t =>
      by_cases hr : r = 0
      · simp [hr, attemptsOf]
      · simp only [if_neg hr]
        have := ih (a + 1) (by omega)
        omega
    | networkError m =>
      by_cases hr : r = 0
      · simp [hr, attemptsOf]
      · simp only [if_neg hr]
        have := ih (a + 1) (by omega)
        omega

/-- An HTTP-success response on the next attempt returns at once. -/
theorem runAttempts_first_success (outcomes : Nat → FetchOutcome) (r a : Nat)
    (hr : 1 ≤ r) (h : outcomes a = .success) :
    runAttempts outcomes r a = .ok (a + 1) := by
  cases r with
  | zero => omega
  | succ r => simp [runAttempts, h]

/-- When every attempt in the remaining budget fails with a retryable failure,
the loop exhausts the budget and surfaces the last error, which is neither the
timeout error nor the defensive no-response error. -/
theorem runAttempts_all_retryable (outcomes : Nat → FetchOutcome) :
    ∀ (r a : Nat), 1 ≤ r → (∀ k, k < a + r → isRetryableFailure (outcomes k) = true) →
      ∃ e, runAttempts outcomes r a = .err e (a + r) ∧ e ≠ .timedOut ∧ e ≠ .noResponse := by
  intro r
  induction r with
  | zero => intro a h; omega
  | succ r ih =>
    intro a _ hall
    have hfail := hall a (by omega)
    cases houtcomes : outcomes a with
    | success => rw [houtcomes] at hfail; simp [isRetryableFailure] at hfail
    | abortError => rw [houtcomes] at hfail; simp [isRetryableFailure] at hfail
    | httpError s t =>
      cases r with
      | zero =>
        refine ⟨.httpFailure s t, ?_, by simp, by simp⟩
        simp [runAttempts, houtcomes]
      | succ r' =>
        obtain ⟨e, he, h1, h2⟩ :=
          ih (a + 1) (by omega) (fun k hk => hall k (by omega))
        refine ⟨e, ?_, h1, h2⟩
        simp only [runAttempts, houtcomes]
        rw [if_neg (by omega)]
        rw [show a + (r' + 1 + 1) = a + 1 + (r' + 1) by omega]
        exact he
    | networkError m =>
      cases r with
      | zero =>
        refine ⟨.networkFailure m, ?_, by simp, by simp⟩
        simp [runAttempts, houtcomes]
      | succ r' =>
        obtain ⟨e, he, h1, h2⟩ :=
          ih (a + 1) (by omega) (fun k hk => hall k (by omega))
        refine ⟨e, ?_, h1, h2⟩
        simp only [runAttempts, houtcomes]
        rw [if_neg (by omega)]
        rw [show a + (r' + 1 + 1) = a + 1 + (r' + 1) by omega]
        exact he

/-- A timed-out attempt inside the budget ends the loop at once with the
timeout error, whatever budget remains. -/
theorem runAttempts_abort (outcomes : Nat → FetchOutcome) :
    ∀ (k r a : Nat), k < r →
      (∀ j, j < k → isRetryableFailure (outcomes (a + j)) = true) →
      outcomes (a + k) = .abortError →
      runAttempts outcomes r a = .err .timedOut (a + k + 1) := by
  intro k
  induction k with
  | zero =>
    intro r a hk _ habort
    cases r with
    | zero => omega
    | succ r =>
      simp only [Nat.add_zero] at habort
      simp [runAttempts, habort]
  | succ k ih =>
    intro r a hk hpre habort
    have h0 : isRetryableFailure (outcomes a) = true := by
      have := hpre 0 (by omega)
      simpa using this
    cases r with
    | zero => omega
    | succ r =>
      cases houtcomes : outcomes a with
      | success => rw [houtcomes] at h0; simp [isRetryableFailure] at h0
      | abortError => rw [houtcomes] at h0; simp [isRetryableFailure] at h0
      | httpError s t =>
        simp only [runAttempts, houtcomes]
        rw [if_neg (by omega)]
        have hrec := ih r (a + 1) (by omega)
          (fun j hj => by
            rw [show a + 1 + j = a + (j + 1) by omega]
            exact hpre (j + 1) (by omega))
          (by rw [show a + 1 + k = a + (k + 1) by omega]; exact habort)
        rw [hrec]
        rw [show a + 1 + k + 1 = a + (k + 1) + 1 by omega]
      | networkError m =>
        simp only [runAttempts, houtcomes]
        rw [if_neg (by omega)]
        have hrec := ih r (a + 1) (by omega)
          (fun j hj => by
            rw [show a + 1 + j = a + (j + 1) by omega]
            exact hpre (j + 1) (by omega))
          (by rw [show a + 1 + k = a + (k + 1) by omega]; exact habort)
        rw [hrec]
        rw [show a + 1 + k + 1 = a + (k + 1) + 1 by omega]

/-- With a positive budget, the loop never reaches the defensive final throw:
it always returns a response or rethrows a real error first. -/
theorem runAttempts_ne_noResponse (outcomes : Nat → FetchOutcome) :
    ∀ (r a m : Nat), 1 ≤ r → runAttempts outcomes r a ≠ .err .noResponse m := by
  intro r
  induction r with
  | zero => intro a m h; omega
  | succ r ih =>
    intro a m _
    simp only [runAttempts]
    cases houtcomes : outcomes a with
    | success => simp
    | abortError => simp
    | httpError s t =>
      by_cases hr : r = 0
      · simp [hr]
      · simp only [if_neg hr]
        exact ih (a + 1) m (by omega)
    | networkError m' =>
      by_cases hr : r = 0
      · simp [hr]
      · simp only [if_neg hr]
        exact ih (a + 1) m (by omega)

/-- Claim C1 counterexample: with maxRetries = 1 and an outcome stream on which
every attempt fails (each fetch attempt aborts), performRequestCore makes only
1 network attempt, not maxRetries + 1 = 2 as the claim requires for a run where
every attempt fails. -/
theorem claim_c1_counterexample :
    performRequestCore 1 allAbort = .err .timedOut 1 ∧
    attemptsOf (performRequestCore 1 allAbort) ≠ 1 + 1 := by
  constructor
  · rfl
  · decide

/-- Claim C1 (amended): for a descriptor with maxRetries = n, performRequestCore
makes exactly n + 1 network attempts when every attempt fails with a retryable
failure — a network error or a non-success HTTP status; a timed-out attempt
instead ends the loop at that attempt — and exactly 1 attempt when the first
attempt succeeds with an HTTP-success status; the loop never exits without
returning a response or throwing a real error (its defensive final
no-response throw is unreachable). -/
theorem claim_c1_amended (n : Nat) (outcomes : Nat → FetchOutcome) :
    ((∀ k, k ≤ n → isRetryableFailure (outcomes k) = true) →
      attemptsOf (performRequestCore n outcomes) = n + 1 ∧
      isErr (performRequestCore n outcomes) = true ∧
      errorOf (performRequestCore n outcomes) ≠ some .timedOut ∧
      errorOf (performRequestCore n outcomes) ≠ some .noResponse)
    ∧ (outcomes 0 = .success → performRequestCore n outcomes = .ok 1)
    ∧ (∀ m, performRequestCore n outcomes ≠ .err .noResponse m) := by
  have htn : ((n : Int) + 1).toNat = n + 1 := by omega
  refine ⟨?_, ?_, ?_⟩
  · intro hall
    obtain ⟨e, he, h1, h2⟩ := runAttempts_all_retryable outcomes (n + 1) 0 (by omega)
      (fun k hk => hall k (by omega))
    have he' : performRequestCore n outcomes = .err e (n + 1) := by
      simpa [performRequestCore, htn] using he
    rw [he']
    refine ⟨rfl, rfl, ?_, ?_⟩ <;> simp [errorOf, h1, h2]
  · intro h
    have := runAttempts_first_success outcomes (n + 1) 0 (by omega) h
    simpa [performRequestCore, htn] using this
  · intro m
    have := runAttempts_ne_noResponse outcomes (n + 1) 0 m (by omega)
    simpa [performRequestCore, htn] using this

/-- Claim C1 amended, applied: maxRetries = 1 and every attempt a network
error gives exactly 2 attempts ending in a non-timeout error. -/
theorem claim_c1_amended_witness :
    attemptsOf (performRequestCore 1 allNetworkDown) = 1 + 1 ∧
    isErr (performRequestCore 1 allNetworkDown) = true ∧
    errorOf (performRequestCore 1 allNetworkDown) ≠ some .timedOut ∧
    errorOf (performRequestCore 1 allNetworkDown) ≠ some .noResponse :=
  (claim_c1_amended 1 allNetworkDown).1 (fun _ _ => rfl)

/-- Claim C2 counterexample: maxRetries = 1; the first attempt times out and
any second attempt would succeed.  The claim requires attempt 2 to run (1 < 2),
but the code surfaces the timeout after exactly 1 attempt: the AbortError
branch rethrows before the retry check. -/
theorem claim_c2_counterexample :
    performRequestCore 1 abortThenSuccess = .err .timedOut 1 ∧
    attemptsOf (performRequestCore 1 abortThenSuccess) ≠ 2 := by
  constructor
  · rfl
  · decide

/-- Claim C2 (amended): a timeout (abort) during attempt k + 1 of a run whose
earlier attempts all failed retryably aborts that attempt and the whole retry
loop — attempt k + 2 never runs, whatever budget remains — and the surfaced
error reports a timeout condition. -/
theorem claim_c2_amended (n k : Nat) (outcomes : Nat → FetchOutcome)
    (hk : k < n + 1)
    (hbefore : ∀ j, j < k → isRetryableFailure (outcomes j) = true)
    (habort : outcomes k = .abortError) :
    performRequestCore n outcomes = .err .timedOut (k + 1) := by
  have htn : ((n : Int) + 1).toNat = n + 1 := by omega
  have := runAttempts_abort outcomes k (n + 1) 0 hk
    (fun j hj => by simpa using hbefore j hj) (by simpa using habort)
  simpa [performRequestCore, htn] using this

/-- Claim C2 amended, applied: maxRetries = 2, attempt 1 fails with HTTP 500,
attempt 2 times out; the run ends at attempt 2 with the timeout error. -/
theorem claim_c2_amended_witness :
    performRequestCore 2 failThenAbort = .err .timedOut 2 :=
  claim_c2_amended 2 1 failThenAbort (by omega)
    (fun j hj => by
      have hj0 : j = 0 := by omega
      subst hj0
      rfl)
    rfl

/-- Claim C10: an absent, non-numeric or "0"-valued x-retry attribute resolves
to maxRetries = 1 (never 0, for any attribute value), and maxRetries = 1 means
performRequestCore makes at most two network attempts. -/
theorem claim_c10 :
    resolveMaxRetries none = 1
    ∧ (∀ s, parseIntJs s = none → resolveMaxRetries (some s) = 1)
    ∧ resolveMaxRetries (some "0") = 1
    ∧ (∀ v, resolveMaxRetries v ≠ 0)
    ∧ (∀ outcomes : Nat → FetchOutcome, attemptsOf (performRequestCore 1 outcomes) ≤ 2) := by
  refine ⟨rfl, ?_, rfl, ?_, ?_⟩
  · intro s h
    simp [resolveMaxRetries, h]
  · intro v
    match v with
    | none => simp [resolveMaxRetries]
    | some s =>
      simp only [resolveMaxRetries]
      cases h : parseIntJs s with
      | none => simp
      | some n =>
        by_cases hn : n = 0
        · simp [hn]
        · simp [hn]
  · intro outcomes
    have := attemptsOf_runAttempts_le outcomes 2 0
    simpa [performRequestCore, show ((1 : Int) + 1).toNat = 2 from rfl] using this

/-- Claim C10, applied: a non-numeric value and a negative value both avoid 0,
and two attempts bound a maxRetries = 1 run on sustained network failure. -/
theorem claim_c10_witness :
    resolveMaxRetries (some "abc") = 1 ∧ resolveMaxRetries (some "-3") ≠ 0 ∧
    attemptsOf (performRequestCore 1 allNetworkDown) ≤ 2 :=
  ⟨claim_c10.2.1 "abc" rfl, claim_c10.2.2.2.1 (some "-3"),
    claim_c10.2.2.2.2 allNetworkDown⟩

/-- The inherited-attribute check written as the spec phrases it: ancestors
count only for inheritable attributes. -/
theorem hasAttributeWithInheritance_cases (c : Chain) (a : String) :
    hasAttributeWithInheritance c a =
      if a ∈ INHERITABLE_ATTRIBUTES then (c.findSome? (fun e => getAttr e a)).isSome
      else (match c with
            | [] => (none : Option String)
            | e :: _ => getAttr e a).isSome := by
  by_cases h : a ∈ INHERITABLE_ATTRIBUTES <;>
    simp [hasAttributeWithInheritance, getAttributeWithInheritance, h]

/-- No action attribute is in the inheritable set. -/
theorem action_attrs_not_inheritable :
    ∀ a ∈ ACTION_ATTRS, a ∉ INHERITABLE_ATTRIBUTES := by decide

/-- Claim C8: the resolved method is the first action-kind attribute, in the
fixed order x-get, x-post, x-put, x-delete, x-patch, found on the element — or
on its ancestors for inheritable attributes, and since no action attribute is
inheritable, the element's own attributes alone decide — and defaults to GET
when no action attribute is present. -/
theorem claim_c8 :
    (∀ c : Chain, getMethod c = methodSpecC8 c)
    ∧ (∀ (e : ElemAttrs) (ancestors : Chain), getMethod (e :: ancestors) = getMethod [e])
    ∧ (∀ e : ElemAttrs, (∀ a ∈ ACTION_ATTRS, getAttr e a = none) → getMethod [e] = "GET") := by
  refine ⟨?_, ?_, ?_⟩
  · intro c
    unfold getMethod methodSpecC8
    rw [find?_congr_on ACTION_ATTRS _ _ (fun a _ => hasAttributeWithInheritance_cases c a)]
  · intro e ancestors
    have hcongr :
        ACTION_ATTRS.find? (fun a => hasAttributeWithInheritance (e :: ancestors) a)
          = ACTION_ATTRS.find? (fun a => hasAttributeWithInheritance [e] a) := by
      apply find?_congr_on
      intro a ha
      have hni := action_attrs_not_inheritable a ha
      simp [hasAttributeWithInheritance, getAttributeWithInheritance, hni]
    unfold getMethod
    rw [hcongr]
  · intro e h
    have hnone : ACTION_ATTRS.find? (fun a => hasAttributeWithInheritance [e] a) = none := by
      rw [List.find?_eq_none]
      intro a ha
      have hni := action_attrs_not_inheritable a ha
      simp [hasAttributeWithInheritance, getAttributeWithInheritance, hni, h a ha]
    unfold getMethod
    rw [hnone]

/-- Claim C8, applied: an element with no attributes resolves to GET. -/
theorem claim_c8_witness : getMethod [ElemAttrs.mk []] = "GET" :=
  claim_c8.2.2 ⟨[]⟩ (fun _ _ => rfl)

/-- Setting a key makes it the value looked up at that key. -/
theorem objGet_objSet_self (m : List (String × String)) (k v : String) :
    objGet (objSet m k v) k = some v := by
  induction m with
  | nil => simp [objSet, objGet]
  | cons p rest ih =>
    by_cases h : p.1 = k
    · simp [objSet, objGet, h]
    · simp [objSet, objGet, h, ih]

/-- Setting a key leaves every other key's lookup unchanged. -/
theorem objGet_objSet_other (m : List (String × String)) (k v k' : String)
    (h : k' ≠ k) : objGet (objSet m k v) k' = objGet m k' := by
  induction m with
  | nil => simp [objSet, objGet, Ne.symm h]
  | cons p rest ih =>
    by_cases hp : p.1 = k
    · simp [objSet, objGet, hp, Ne.symm h]
    · simp [objSet, objGet, hp, ih]

/-- Claim C6 counterexample: the descriptor's headers carry X-CSRF-Token with
value A and the engine is configured with token B; the assembled headers carry
B — the configured token, not the descriptor's header, wins the conflict,
because prepareRequestHeaders copies the descriptor headers first and injects
the CSRF token afterward. -/
theorem claim_c6_counterexample :
    prepareRequestHeaders csrfConfigured jsonParseNone none [("X-CSRF-Token", "A")]
      = .ok [("X-CSRF-Token", "B")] ∧ ("B" : String) ≠ "A" := by
  constructor
  · rfl
  · decide

/-- Claim C6 (amended): when the final request headers are assembled, the
descriptor's headers are laid down first and the CSRF token (literal value or
zero-argument provider result) is injected on top afterward, so on a conflict
at the CSRF header name the configured token wins, while every other
descriptor header is preserved; with no token configured the descriptor's
headers pass through unchanged (x-headers attribute absent in both cases). -/
theorem claim_c6_amended (csrfToken : Option CsrfSource)
    (parseJsonObj : String → Option (List (String × String)))
    (defaultHeaders : List (String × String)) :
    (csrfTruthy csrfToken = true →
      prepareRequestHeaders csrfToken parseJsonObj none defaultHeaders
        = .ok (objSet defaultHeaders "X-CSRF-Token" (csrfOptValue csrfToken)) ∧
      objGet (objSet defaultHeaders "X-CSRF-Token" (csrfOptValue csrfToken)) "X-CSRF-Token"
        = some (csrfOptValue csrfToken) ∧
      ∀ k, k ≠ "X-CSRF-Token" →
        objGet (objSet defaultHeaders "X-CSRF-Token" (csrfOptValue csrfToken)) k
          = objGet defaultHeaders k)
    ∧ (csrfTruthy csrfToken = false →
        prepareRequestHeaders csrfToken parseJsonObj none defaultHeaders
          = .ok defaultHeaders) := by
  constructor
  · intro h
    refine ⟨?_, objGet_objSet_self _ _ _, fun k hk => objGet_objSet_other _ _ _ _ hk⟩
    simp [prepareRequestHeaders, h]
  · intro h
    simp [prepareRequestHeaders, h]

/-- Claim C6 amended, applied: token "tok" over descriptor headers carrying
only Accept. -/
theorem claim_c6_amended_witness :
    prepareRequestHeaders (some (.literal "tok")) jsonParseNone none [("Accept", "json")]
      = .ok (objSet [("Accept", "json")] "X-CSRF-Token" "tok") :=
  ((claim_c6_amended (some (.literal "tok")) jsonParseNone [("Accept", "json")]).1 rfl).1

/-- Claim C9 counterexample: a hook failure on an element declaring
x-on-error = "myHandler", with that global callable and no process-wide
onError: handleError routes the failure to the built-in fallback, not to the
element-declared handler that the claimed uniform resolution order requires. -/
theorem claim_c9_counterexample :
    failureSink .hookFailure (some "myHandler") windowWithHandler false = .builtinFallback ∧
    elementHandlerUsable (some "myHandler") windowWithHandler = true ∧
    ErrorSink.builtinFallback ≠ .elementHandler "myHandler" := by
  refine ⟨rfl, by decide, by decide⟩

/-- Claim C9 (amended): only trigger-action failures resolve through the
three-step order — the x-on-error-named handler when present and callable,
else the process-wide onError callback, else the built-in fallback.  Every
other failure path (hook failures, SSE errors, infinite-scroll errors) goes
through handleError, which consults only the process-wide callback and the
built-in fallback and never the element-declared handler. -/
theorem claim_c9_amended (xOnErrorAttr : Option String) (windowFns : String → Bool)
    (onErrorIsFn : Bool) :
    (∀ name, xOnErrorAttr = some name → name ≠ "" → windowFns name = true →
      failureSink .triggerAction xOnErrorAttr windowFns onErrorIsFn = .elementHandler name)
    ∧ (elementHandlerUsable xOnErrorAttr windowFns = false → onErrorIsFn = true →
        failureSink .triggerAction xOnErrorAttr windowFns onErrorIsFn = .onErrorCallback)
    ∧ (elementHandlerUsable xOnErrorAttr windowFns = false → onErrorIsFn = false →
        failureSink .triggerAction xOnErrorAttr windowFns onErrorIsFn = .builtinFallback)
    ∧ (∀ p, p ≠ .triggerAction →
        failureSink p xOnErrorAttr windowFns onErrorIsFn = handleErrorSink onErrorIsFn)
    ∧ (∀ p, p ≠ .triggerAction → onErrorIsFn = false →
        failureSink p xOnErrorAttr windowFns onErrorIsFn = .builtinFallback) := by
  refine ⟨?_, ?_, ?_, ?_, ?_⟩
  · intro name h hne hw
    subst h
    simp [failureSink, actionCatchSink, hne, hw]
  · intro hu ho
    cases xOnErrorAttr with
    | none => simp [failureSink, actionCatchSink, ho]
    | some name =>
      simp only [elementHandlerUsable] at hu
      by_cases hne : name = ""
      · simp [failureSink, actionCatchSink, hne, ho]
      · have hw : windowFns name = false := by simpa [hne] using hu
        simp [failureSink, actionCatchSink, hne, hw, ho]
  · intro hu ho
    cases xOnErrorAttr with
    | none => simp [failureSink, actionCatchSink, ho]
    | some name =>
      simp only [elementHandlerUsable] at hu
      by_cases hne : name = ""
      · simp [failureSink, actionCatchSink, hne, ho]
      · have hw : windowFns name = false := by simpa [hne] using hu
        simp [failureSink, actionCatchSink, hne, hw, ho]
  · intro p hp
    cases p with
    | triggerAction => exact absurd rfl hp
    | hookFailure => rfl
    | sseError => rfl
    | infiniteScrollError => rfl
  · intro p hp ho
    cases p with
    | triggerAction => exact absurd rfl hp
    | hookFailure => simp [failureSink, handleErrorSink, ho]
    | sseError => simp [failureSink, handleErrorSink, ho]
    | infiniteScrollError => simp [failureSink, handleErrorSink, ho]

/-- Claim C9 amended, applied: the same configuration routes a trigger-action
failure to the element handler and an SSE failure to the built-in fallback. -/
theorem claim_c9_amended_witness :
    failureSink .triggerAction (some "myHandler") windowWithHandler false
      = .elementHandler "myHandler" ∧
    failureSink .sseError (some "myHandler") windowWithHandler false = .builtinFallback :=
  ⟨(claim_c9_amended (some "myHandler") windowWithHandler false).1 "myHandler" rfl
      (by decide) (by decide),
    (claim_c9_amended (some "myHandler") windowWithHandler false).2.2.2.2 .sseError
      (by decide) rfl⟩

mutual

/-- Below a kept (non-marked) node, out-of-band removal leaves no marked node. -/
theorem removeOobNode_clean : ∀ (n : MNode), hasOob n = false →
    ∀ m ∈ nodeList (removeOobNode n), hasOob m = false
  | .elem a mk cs => by
    intro hn m hm
    simp only [removeOobNode, nodeList, List.mem_cons] at hm
    rcases hm with rfl | hm
    · simpa [hasOob, nAttr, MNode.nattrs] using hn
    · exact removeOobForest_clean cs m hm

/-- After out-of-band removal, no node of the remaining forest, at any depth,
carries the out-of-band marker. -/
theorem removeOobForest_clean : ∀ (l : List MNode),
    ∀ m ∈ forestNodes (removeOobForest l), hasOob m = false
  | [] => by
    intro m hm
    simp [removeOobForest, forestNodes] at hm
  | n :: rest => by
    intro m hm
    simp only [removeOobForest] at hm
    by_cases hn : hasOob n
    · rw [if_pos hn] at hm
      exact removeOobForest_clean rest m hm
    · rw [if_neg hn] at hm
      simp only [forestNodes, List.mem_append] at hm
      rcases hm with h | h
      · exact removeOobNode_clean n (by simpa using hn) m h
      · exact removeOobForest_clean rest m h

end

/-- handleOobSwapping yields exactly one step per extracted fragment. -/
theorem handleOobSwapping_length (doc : DocState) (defaultSwap : String) :
    ∀ l : List MNode, (handleOobSwapping doc defaultSwap l).length = l.length := by
  intro l
  induction l with
  | nil => rfl
  | cons o rest ih => simp [handleOobSwapping, ih]

/-- Claim C4: out-of-band fragments are removed from the parsed document before
the primary swap content is computed — no node of the primary content carries
the marker; handleOobSwapping produces exactly one step per fragment (so each
fragment is applied at most once); a fragment whose id matches no existing
element becomes a reported skip that leaves the remaining fragments' processing
unchanged; a matched fragment is applied once, by its id, with its own declared
strategy defaulting to the engine default. -/
theorem claim_c4 (doc : DocState) (responseBody : List MNode)
    (respHeaders : String → Option String) (chain : Chain)
    (defaultSwap : String) (fallbackTarget : Nat) :
    (∀ m ∈ forestNodes
        ((processResponse doc responseBody respHeaders chain defaultSwap fallbackTarget).content),
      nAttr m "x-swap-oob" = none)
    ∧ (processResponse doc responseBody respHeaders chain defaultSwap fallbackTarget).oobSteps.length
        = (collectOobForest responseBody).length
    ∧ (∀ (o : MNode) (rest : List MNode) (tid : String),
        nAttr o "id" = some tid → tid ≠ "" → doc.byId tid = none →
        handleOobSwapping doc defaultSwap (o :: rest)
          = .skippedNoTarget tid :: handleOobSwapping doc defaultSwap rest)
    ∧ (∀ (o : MNode) (rest : List MNode) (tid : String) (h : Nat),
        nAttr o "id" = some tid → tid ≠ "" → doc.byId tid = some h →
        handleOobSwapping doc defaultSwap (o :: rest)
          = .applied tid (jsOrD (nAttr o "x-swap-oob") defaultSwap) o
              :: handleOobSwapping doc defaultSwap rest) := by
  refine ⟨?_, ?_, ?_, ?_⟩
  · intro m hm
    have hcontent :
        (processResponse doc responseBody respHeaders chain defaultSwap fallbackTarget).content
          = removeOobForest responseBody := rfl
    rw [hcontent] at hm
    have h := removeOobForest_clean responseBody m hm
    simp only [hasOob] at h
    exact Option.not_isSome_iff_eq_none.mp (by simp [h])
  · have hsteps :
        (processResponse doc responseBody respHeaders chain defaultSwap fallbackTarget).oobSteps
          = handleOobSwapping doc defaultSwap (collectOobForest responseBody) := rfl
    rw [hsteps, handleOobSwapping_length]
  · intro o rest tid hid htid hmiss
    simp [handleOobSwapping, oobStepFor, hid, htid, hmiss]
  · intro o rest tid h hid htid hhit
    simp [handleOobSwapping, oobStepFor, hid, htid, hhit]

/-- Claim C4, applied: an unmatched fragment is skipped with a report and the
(empty) remainder is processed as usual. -/
theorem claim_c4_witness :
    handleOobSwapping docEmpty "innerHTML" [oobNodeUnmatched] = [.skippedNoTarget "zz"] := by
  have h := (claim_c4 docEmpty [] (fun _ => none) [] "innerHTML" 0).2.2.1
    oobNodeUnmatched [] "zz" rfl (by decide) rfl
  simpa [handleOobSwapping] using h

/-- setupElement's marker update is idempotent. -/
theorem setupElementM_idem (attrs : List (String × String)) (m : Marks) :
    setupElementM attrs (setupElementM attrs m) = setupElementM attrs m := by
  simp only [setupElementM]
  by_cases hi : m.inited
  · simp [hi]
  · by_cases hs : (objGet attrs "x-infinite-scroll").isSome
    · simp [hi, hs]
    · simp [hi, hs]

/-- setupSSEElement's marker update is idempotent. -/
theorem setupSSEElementM_idem (attrs : List (String × String)) (m : Marks) :
    setupSSEElementM attrs (setupSSEElementM attrs m) = setupSSEElementM attrs m := by
  simp only [setupSSEElementM]
  by_cases hs : m.sseInited
  · simp [hs]
  · by_cases hu : jsOrD (objGet attrs "x-sse") "" = ""
    · simp [hs, hu]
    · simp [hs, hu]

/-- One scan's marker update is idempotent. -/
theorem scanMarks_idem (attrs : List (String × String)) (m : Marks) :
    scanMarks attrs (scanMarks attrs m) = scanMarks attrs m := by
  simp only [scanMarks]
  by_cases hm : matchesScanAttrs attrs
  · simp only [if_pos hm]
    by_cases hs : (objGet attrs "x-sse").isSome
    · simp [hs, setupSSEElementM_idem]
    · simp [hs, setupElementM_idem]
  · simp [hm]

mutual

/-- Re-scanning a scanned subtree changes nothing. -/
theorem scanNode_idem : ∀ n : MNode, scanNode (scanNode n) = scanNode n
  | .elem a mk cs => by
    simp only [scanNode]
    rw [scanMarks_idem, scanForest_idem cs]

/-- Re-scanning a scanned forest changes nothing. -/
theorem scanForest_idem : ∀ l : List MNode, scanForest (scanForest l) = scanForest l
  | [] => rfl
  | n :: rest => by
    simp only [scanForest]
    rw [scanNode_idem n, scanForest_idem rest]

end

/-- Scanning a fresh action element attaches exactly one listener and marks it
initialized. -/
theorem scanMarks_fresh_action (attrs : List (String × String))
    (hact : ACTION_ATTRS.any (fun a => (objGet attrs a).isSome) = true)
    (hsse : objGet attrs "x-sse" = none)
    (hscroll : objGet attrs "x-infinite-scroll" = none) :
    scanMarks attrs freshMarks = ⟨true, false, 1⟩ := by
  simp [scanMarks, matchesScanAttrs, hact, hsse, hscroll, setupElementM, freshMarks]

mutual

/-- In a freshly parsed, then scanned subtree, every action element carries
exactly one trigger listener and is marked initialized. -/
theorem scanClear_node : ∀ (n : MNode), ∀ m ∈ nodeList (scanNode (clearNode n)),
    isActionElement m = true → m.listeners = 1 ∧ m.inited = true
  | .elem a mk cs => by
    intro m hm hact
    simp only [clearNode, scanNode, clearForest, nodeList, List.mem_cons] at hm
    rcases hm with rfl | hm
    · simp only [isActionElement, nAttr, MNode.nattrs, Bool.and_eq_true] at hact
      obtain ⟨⟨hactattr, hsse⟩, hscroll⟩ := hact
      have hsse' : objGet a "x-sse" = none := Option.isNone_iff_eq_none.mp hsse
      have hscroll' : objGet a "x-infinite-scroll" = none :=
        Option.isNone_iff_eq_none.mp hscroll
      rw [scanMarks_fresh_action a hactattr hsse' hscroll']
      constructor
      · rfl
      · rfl
    · exact scanClear_forest cs m hm hact

/-- In a freshly parsed, then scanned forest, every action element carries
exactly one trigger listener and is marked initialized. -/
theorem scanClear_forest : ∀ (l : List MNode),
    ∀ m ∈ forestNodes (scanForest (clearForest l)),
    isActionElement m = true → m.listeners = 1 ∧ m.inited = true
  | [] => by
    intro m hm _
    simp [clearForest, scanForest, forestNodes] at hm
  | n :: rest => by
    intro m hm hact
    simp only [clearForest, scanForest, forestNodes, List.mem_append] at hm
    rcases hm with h | h
    · exact scanClear_node n m h hact
    · exact scanClear_forest rest m h hact

end

mutual

/-- Every node of a freshly parsed subtree carries cleared markers. -/
theorem clearNode_fresh : ∀ (n : MNode), ∀ m ∈ nodeList (clearNode n), m.marks = freshMarks
  | .elem a mk cs => by
    intro m hm
    simp only [clearNode, nodeList, List.mem_cons] at hm
    rcases hm with rfl | hm
    · rfl
    · exact clearForest_fresh cs m hm

/-- Every node of a freshly parsed forest carries cleared markers. -/
theorem clearForest_fresh : ∀ (l : List MNode),
    ∀ m ∈ forestNodes (clearForest l), m.marks = freshMarks
  | [] => by
    intro m hm
    simp [clearForest, forestNodes] at hm
  | n :: rest => by
    intro m hm
    simp only [clearForest, forestNodes, List.mem_append] at hm
    rcases hm with h | h
    · exact clearNode_fresh n m h
    · exact clearForest_fresh rest m h

end

/-- Claim C5 counterexample: performSwap with strategy beforebegin on a content
forest holding one declarative action element inserts a second, fresh parse of
the content — the pre-activated fragment is discarded — so the inserted element
leaves performSwap with 0 trigger listeners, not exactly 1. -/
theorem claim_c5_counterexample :
    (performSwap [sampleActionNode] "beforebegin").inserted = [sampleActionNode] ∧
    isActionElement sampleActionNode = true ∧
    sampleActionNode.listeners = 0 ∧ (0 : Nat) ≠ 1 := by
  refine ⟨rfl, rfl, rfl, by decide⟩

/-- Claim C5 (amended): performSwap parses the content once into a detached
fragment and pre-activates it before anything enters the document, but only the
outerHTML and innerHTML strategies insert that fragment — under them every
inserted declarative action element ends up initialized with its trigger
listener attached exactly once, and a re-scan changes nothing (the exactly-once
guarantee).  The four sibling-relative insertions re-parse the raw content
string via insertAdjacentHTML and insert fresh nodes that leave performSwap
uninitialized with no listeners. -/
theorem claim_c5_amended (content : List MNode) (swapOption : String) :
    ((swapOption = "outerHTML" ∨ swapOption = "innerHTML") →
      ∀ m ∈ forestNodes ((performSwap content swapOption).inserted),
        isActionElement m = true → m.listeners = 1 ∧ m.inited = true)
    ∧ ((swapOption = "beforebegin" ∨ swapOption = "afterbegin" ∨
        swapOption = "beforeend" ∨ swapOption = "afterend") →
        (performSwap content swapOption).inserted = clearForest content ∧
        ∀ m ∈ forestNodes ((performSwap content swapOption).inserted),
          m.listeners = 0 ∧ m.inited = false)
    ∧ scanForest (scanForest (clearForest content)) = scanForest (clearForest content) := by
  refine ⟨?_, ?_, scanForest_idem (clearForest content)⟩
  · intro h
    rcases h with rfl | rfl
    · have hins : (performSwap content "outerHTML").inserted
          = scanForest (clearForest content) := rfl
      rw [hins]
      exact scanClear_forest content
    · have hins : (performSwap content "innerHTML").inserted
          = scanForest (clearForest content) := rfl
      rw [hins]
      exact scanClear_forest content
  · intro h
    have hins : (performSwap content swapOption).inserted = clearForest content := by
      rcases h with rfl | rfl | rfl | rfl <;> rfl
    refine ⟨hins, ?_⟩
    rw [hins]
    intro m hm
    have hf := clearForest_fresh content m hm
    constructor
    · simp [MNode.listeners, hf, freshMarks]
    · simp [MNode.inited, hf, freshMarks]

/-- Claim C5 amended, applied: the scanned action element inserted by an
outerHTML swap of the sample content carries one listener and is initialized. -/
theorem claim_c5_amended_witness :
    scannedActionNode.listeners = 1 ∧ scannedActionNode.inited = true :=
  (claim_c5_amended [sampleActionNode] "outerHTML").1 (Or.inl rfl) scannedActionNode
    (List.Mem.head _) rfl

/-- Claim C3: the swap strategy processResponse applies is the truthy X-Swap
response header when present, else the element's declared/inherited x-swap
attribute when truthy, else the engine default; and a resolvable X-Target
header selector (via querySelector, falling back to getElementById) makes the
swap land on the header-selected element instead of the caller-supplied
fallback target. -/
theorem claim_c3 (doc : DocState) (responseBody : List MNode)
    (respHeaders : String → Option String) (chain : Chain)
    (defaultSwap : String) (fallbackTarget : Nat) :
    (∀ s, respHeaders "X-Swap" = some s → s ≠ "" →
      (processResponse doc responseBody respHeaders chain defaultSwap fallbackTarget).swapOption
        = s)
    ∧ (respHeaders "X-Swap" = none →
        (∀ a, getAttributeWithInheritance chain "x-swap" = some a → a ≠ "" →
          (processResponse doc responseBody respHeaders chain defaultSwap
            fallbackTarget).swapOption = a)
        ∧ (getAttributeWithInheritance chain "x-swap" = none →
            (processResponse doc responseBody respHeaders chain defaultSwap
              fallbackTarget).swapOption = defaultSwap))
    ∧ (∀ sel h, respHeaders "X-Target" = some sel → sel ≠ "" →
        (doc.bySelector sel = some h ∨
          (doc.bySelector sel = none ∧ doc.byId sel = some h)) →
        (processResponse doc responseBody respHeaders chain defaultSwap fallbackTarget).target
          = .elem h) := by
  have hswap :
      (processResponse doc responseBody respHeaders chain defaultSwap fallbackTarget).swapOption
        = resolveSwapOption chain defaultSwap (respHeaders "X-Swap") := rfl
  have htgt :
      (processResponse doc responseBody respHeaders chain defaultSwap fallbackTarget).target
        = (resolveFinalTarget doc (respHeaders "X-Target") fallbackTarget).1 := rfl
  refine ⟨?_, ?_, ?_⟩
  · intro s hs hne
    rw [hswap, hs]
    simp [resolveSwapOption, jsOrD, hne]
  · intro hnone
    constructor
    · intro a ha hane
      rw [hswap, hnone]
      simp [resolveSwapOption, jsOrD, ha, hane]
    · intro hanone
      rw [hswap, hnone]
      simp [resolveSwapOption, jsOrD, hanone]
  · intro sel h hsel hselne hres
    rw [htgt, hsel]
    rcases hres with hq | ⟨hq, hid⟩
    · simp [resolveFinalTarget, hselne, hq]
    · simp [resolveFinalTarget, hselne, hq, hid]

/-- Claim C3, applied: the element declares x-swap innerHTML and target #x, the
response overrides with X-Swap outerHTML and X-Target #y; the final swap is
outerHTML on element 7 (#y), not on the fallback 3 (#x). -/
theorem claim_c3_witness :
    (processResponse docC3 [] respHeadersC3 chainC3 "innerHTML" 3).swapOption = "outerHTML" ∧
    (processResponse docC3 [] respHeadersC3 chainC3 "innerHTML" 3).target = .elem 7 :=
  ⟨(claim_c3 docC3 [] respHeadersC3 chainC3 "innerHTML" 3).1 "outerHTML" rfl (by decide),
   (claim_c3 docC3 [] respHeadersC3 chainC3 "innerHTML" 3).2.2 "#y" 7 rfl (by decide)
     (Or.inl rfl)⟩

/-- Claim C7 counterexample: an element whose x-params value is malformed JSON
(the host JSON.parse rejects it), with no onError configured: the error is
reported through the error path (built-in fallback) and yet the interaction
issues the network request — 1 attempt, not the claimed 0. -/
theorem claim_c7_counterexample :
    handleActionModel cfgC7 envC7 chainC7
      = { confirmed := true, reports := [.builtinFallback],
          requestAttempts := 1, succeeded := true } ∧
    (1 : Nat) ≠ 0 := by
  refine ⟨rfl, by decide⟩

/-- Claim C7 (amended): malformed JSON in x-params is reported through the
error path and unconditionally treated as an empty object; the triggered action
is not aborted — whenever the confirm gate and the descriptor's configuration
checks pass, the network request is still issued. -/
theorem claim_c7_amended (cfg : EngineConfig) (env : HostEnv) (chain : Chain) (s : String)
    (hxp : getAttributeWithInheritance chain "x-params" = some s)
    (hs : s ≠ "")
    (hbad : env.parseJsonObj s = none) :
    (extractRequestParams cfg env chain).1.paramsObject = [] ∧
    (extractRequestParams cfg env chain).2 = [handleErrorSink cfg.onErrorIsFn] ∧
    (∀ rp : RequestParamsM, jsOrD (getAttr (selfElem chain) "x-confirm") "" = "" →
      (prepareRequestParamsM cfg env chain).1 = .ok rp →
      prepareRequestBodyControl env chain = .ok () →
      (∃ hs', prepareRequestHeaders cfg.csrfToken env.parseJsonObj
          (getAttr (selfElem chain) "x-headers") rp.headers = .ok hs') →
      0 ≤ resolveMaxRetries (getAttributeWithInheritance chain "x-retry") →
      1 ≤ (handleActionModel cfg env chain).requestAttempts) := by
  refine ⟨?_, ?_, ?_⟩
  · simp [extractRequestParams, hxp, hs, hbad]
  · simp [extractRequestParams, hxp, hs, hbad]
  · intro rp hconfirm hprep hbody hheaders hr
    obtain ⟨hs', hh⟩ := hheaders
    have hcore : 1 ≤ attemptsOf (performRequestCore
        (resolveMaxRetries (getAttributeWithInheritance chain "x-retry")) env.outcomes) := by
      unfold performRequestCore
      have h1 : 1 ≤ (resolveMaxRetries (getAttributeWithInheritance chain "x-retry")
          + 1).toNat := by omega
      have := le_attemptsOf_runAttempts env.outcomes
        ((resolveMaxRetries (getAttributeWithInheritance chain "x-retry") + 1).toNat) 0 h1
      simpa using this
    simp only [handleActionModel, hconfirm]
    rw [if_neg (by simp)]
    simp only [hprep, performRequestModel, hbody, hh]
    cases hres : performRequestCore
        (resolveMaxRetries (getAttributeWithInheritance chain "x-retry")) env.outcomes with
    | ok a =>
      rw [hres] at hcore
      simpa [attemptsOf] using hcore
    | err e a =>
      rw [hres] at hcore
      simpa [attemptsOf] using hcore

/-- Claim C7 amended, applied: the concrete malformed-params run reports the
error through the built-in fallback, keeps an empty params object, and still
issues its network request. -/
theorem claim_c7_amended_witness :
    (extractRequestParams cfgC7 envC7 chainC7).1.paramsObject = [] ∧
    (extractRequestParams cfgC7 envC7 chainC7).2 = [ErrorSink.builtinFallback] ∧
    1 ≤ (handleActionModel cfgC7 envC7 chainC7).requestAttempts := by
  have h := claim_c7_amended cfgC7 envC7 chainC7 "oops" rfl (by decide) rfl
  refine ⟨h.1, by simpa using h.2.1, ?_⟩
  exact h.2.2 rpC7 rfl rfl rfl ⟨rpC7.headers, rfl⟩ (by decide)

end PartialJs
